import Mathlib

/-! Verification of the Go training snippets (Day10 – Day12).

Shallow embedding of

* `Day10/Go/day10_functions.go`      (`divide`, `main`)
* `Day11/Go/day11_panic_recover.go`  (`safeDivide`, `main`)
* `Day11/Go/day11_error_handling.go` (`readConfig`, `main`)
* `Day12/Go/day12_goroutines.go`     (`worker`, `main`)
* `Day12/Go/day12_select.go`         (`main`)

Go's `int` is modelled as a mathematical integer together with the 64-bit
two's-complement wrap-around; standard output is an explicit list of printed
lines; a panic in flight is an explicit control-flow value.
-/

namespace GoTraining

/-! ## Machine integers -/

/-- Smallest value of Go's 64-bit `int`. -/
def minInt : Int := -(2 ^ 63)

/-- Largest value of Go's 64-bit `int`. -/
def maxInt : Int := 2 ^ 63 - 1

/-- The values a Go `int` can hold. -/
def InRange (x : Int) : Prop := minInt ≤ x ∧ x ≤ maxInt

instance (x : Int) : Decidable (InRange x) := by
  unfold InRange; infer_instance

/-- Two's-complement wrap-around of a mathematical integer into 64 bits. -/
def wrapInt (x : Int) : Int := (x + 2 ^ 63) % 2 ^ 64 - 2 ^ 63

/-- Go's `a / b` on `int` for `b != 0`: the quotient truncated toward zero,
wrapped into 64 bits (only `minInt / -1` actually wraps). -/
def goDiv (a b : Int) : Int := wrapInt (Int.tdiv a b)

/-! ## Errors, panics and standard output -/

/-- A Go `error` value: `nil` is `none`, a non-nil error carries its message. -/
abbrev GoError := Option String

/-- How a function body stops: by `return v` or by a panic carrying a value. -/
inductive Flow (α : Type) where
  | ret (v : α)
  | panic (msg : String)
  deriving DecidableEq, Repr

/-- Standard output, one entry per `fmt.Println` call. -/
abbrev Stdout := List String

/-! ## Day10: `divide` -/

/-- `divide` of `day10_functions.go`. -/
def divide (a b : Int) : Int × GoError :=
  if b = 0 then
    (0, some "division by zero")
  else
    (goDiv a b, none)

/-- `main` of `day10_functions.go`, as a function from the output so far. -/
def divideMain (out : Stdout) : Stdout :=
  match divide 10 2 with
  | (_, some err) => out ++ ["Error: " ++ err]
  | (result, none) => out ++ ["Result: " ++ toString result]

/-! ## Day11: `safeDivide` (panic / defer / recover) -/

/-- The activation record of a function with one unnamed `int` result and
deferred calls: the result slot, the panic in flight (if any) and the output. -/
structure Frame where
  result : Int
  panicking : Option String
  out : Stdout
  deriving DecidableEq, Repr

/-- Statements of `safeDivide` after the `defer` (lines 12–15). -/
def safeDivideBody (a b : Int) : Flow Int :=
  if b = 0 then
    .panic "division by zero"
  else
    .ret (goDiv a b)

/-- Run a body in a fresh frame: the result slot starts at the zero value and
is written by `return`; a panic leaves it untouched and starts unwinding. -/
def enterFrame (body : Flow Int) (out : Stdout) : Frame :=
  match body with
  | .ret v => { result := v, panicking := none, out := out }
  | .panic msg => { result := 0, panicking := some msg, out := out }

/-- The deferred closure of `safeDivide` (lines 6–10): `recover()` yields the
value of the panic in flight and stops it, or `nil` when there is none. -/
def safeDivideDeferred (f : Frame) : Frame :=
  match f.panicking with
  | some r => { f with panicking := none, out := f.out ++ ["Recovered from panic: " ++ r] }
  | none => f

/-- Leave a frame after its deferred calls ran: a panic still in flight
propagates to the caller, otherwise the result slot is returned. -/
def leaveFrame (f : Frame) : Stdout × Flow Int :=
  match f.panicking with
  | some msg => (f.out, .panic msg)
  | none => (f.out, .ret f.result)

/-- `safeDivide` of `day11_panic_recover.go`. -/
def safeDivide (a b : Int) (out : Stdout) : Stdout × Flow Int :=
  leaveFrame (safeDivideDeferred (enterFrame (safeDivideBody a b) out))

/-- `main` of `day11_panic_recover.go`: a panic escaping `safeDivide` would
end the program before the `Println`. -/
def safeDivideMain (out : Stdout) : Stdout × Flow Unit :=
  match safeDivide 10 0 out with
  | (out1, .ret result) => (out1 ++ ["Result: " ++ toString result], .ret ())
  | (out1, .panic msg) => (out1, .panic msg)

/-! ## Day11: `readConfig` -/

/-- `readConfig` of `day11_error_handling.go`. -/
def readConfig (path : String) : String × GoError :=
  if path = "" then
    ("", some "path cannot be empty")
  else
    ("config-data", none)

/-- `main` of `day11_error_handling.go`. -/
def readConfigMain (out : Stdout) : Stdout :=
  match readConfig "" with
  | (_, some err) => out ++ ["Error: " ++ err]
  | (data, none) => out ++ ["Config: " ++ data]

/-! ## Concurrency models (Day12) -/

/-! ### `day12_goroutines.go`

An interleaving semantics: the state holds the program counter of `main` and
of every goroutine spawned so far; one action is one atomic step of one of
them, picked by the scheduler. -/

/-- Program counter of one `worker(id)` goroutine (lines 8–12). -/
inductive WorkerPC where
  /-- Before `fmt.Println("Worker", id, "started")`. -/
  | start
  /-- Inside `time.Sleep(500 * time.Millisecond)`. -/
  | sleeping
  /-- Before `fmt.Println("Worker", id, "finished")`. -/
  | finishing
  /-- The function returned. -/
  | done
  deriving DecidableEq, Repr

/-- A spawned goroutine running `worker(id)`. -/
structure Worker where
  id : Int
  pc : WorkerPC
  deriving DecidableEq, Repr

/-- Program counter of `main` in `day12_goroutines.go` (lines 14–20). -/
inductive PoolMainPC where
  /-- At the loop condition `i <= 3` with the current value of `i`. -/
  | loop (i : Int)
  /-- Inside `time.Sleep(1 * time.Second)`. -/
  | sleeping
  /-- The function `main` returned: the program is over. -/
  | exited
  deriving DecidableEq, Repr

/-- State of the goroutines program. -/
structure PoolState where
  main : PoolMainPC
  /-- Goroutines created by `go worker(i)`, in spawn order. -/
  workers : List Worker
  /-- Number of loop bodies executed so far. -/
  iterations : Nat
  out : Stdout
  deriving DecidableEq, Repr

/-- Who takes the next step. -/
inductive PoolAction where
  | main
  | worker (k : Nat)
  deriving DecidableEq, Repr

/-- State at entry of `main`: `i := 1`, nothing spawned. -/
def poolInit : PoolState :=
  { main := .loop 1, workers := [], iterations := 0, out := [] }

/-- One step of `worker(id)`. -/
def workerStep (w : Worker) (out : Stdout) : Option (Worker × Stdout) :=
  match w.pc with
  | .start => some ({ w with pc := .sleeping }, out ++ ["Worker " ++ toString w.id ++ " started"])
  | .sleeping => some ({ w with pc := .finishing }, out)
  | .finishing => some ({ w with pc := .done }, out ++ ["Worker " ++ toString w.id ++ " finished"])
  | .done => none

/-- One step of `main`: a loop round (`i <= 3`, `go worker(i)`, `i++`) or the
loop exit, then the final sleep, then the return. The `go` statement only
adds a goroutine: it looks at no worker. -/
def poolMainStep (s : PoolState) : Option PoolState :=
  match s.main with
  | .loop i =>
    if i ≤ 3 then
      some { s with main := .loop (wrapInt (i + 1)),
                    workers := s.workers ++ [{ id := i, pc := .start }],
                    iterations := s.iterations + 1 }
    else
      some { s with main := .sleeping }
  | .sleeping => some { s with main := .exited }
  | .exited => none

/-- One scheduled step of the goroutines program; `none` when the chosen
party cannot move. Nothing runs once `main` has returned. -/
def poolStep (a : PoolAction) (s : PoolState) : Option PoolState :=
  match a with
  | .main => poolMainStep s
  | .worker k =>
    if s.main = .exited then none
    else
      match s.workers.get? k with
      | none => none
      | some w =>
        match workerStep w s.out with
        | none => none
        | some (w1, out1) => some { s with workers := s.workers.set k w1, out := out1 }

/-- Run a schedule from a state. -/
def poolRun : List PoolAction → PoolState → Option PoolState
  | [], s => some s
  | a :: rest, s =>
    match poolStep a s with
    | none => none
    | some s1 => poolRun rest s1

/-- Number of steps `main` takes in a schedule. -/
def mainSteps (acts : List PoolAction) : Nat :=
  acts.countP (fun a => a = .main)

/-- Arguments of the `go worker(i)` statements executed so far, in order. -/
def spawnedIds (s : PoolState) : List Int :=
  s.workers.map (fun w => w.id)

/-! ### `day12_select.go`

The same kind of interleaving semantics, with a clock in milliseconds:
`time.Sleep(d)` keeps a goroutine asleep for at least `d`. The channels are
unbuffered, so a send completes only together with a receive. -/

/-- Program counter of a producer goroutine (lines 12–15 and 17–20). -/
inductive ProducerPC where
  /-- Its `go` statement has not run yet. -/
  | notStarted
  /-- Inside `time.Sleep`, not to be woken before `wakeAt`. -/
  | sleeping (wakeAt : Nat)
  /-- Blocked at `ch <- msg`, waiting for a receiver. -/
  | sending
  /-- The send completed and the goroutine returned. -/
  | done
  deriving DecidableEq, Repr

/-- Program counter of `main` in `day12_select.go` (lines 8–28). -/
inductive SelectMainPC where
  /-- Before the first `go` statement; both channels are made. -/
  | spawn1
  /-- Before the second `go` statement. -/
  | spawn2
  /-- At the `select` statement. -/
  | atSelect
  /-- Inside the chosen case, before `fmt.Println(msg)`. -/
  | println (msg : String)
  /-- The function `main` returned: the program is over. -/
  | exited
  deriving DecidableEq, Repr

/-- State of the select program. -/
structure SelectState where
  clock : Nat
  main : SelectMainPC
  g1 : ProducerPC
  g2 : ProducerPC
  /-- Values whose send on `ch1` completed. -/
  sent1 : List String
  /-- Values whose send on `ch2` completed. -/
  sent2 : List String
  out : Stdout
  deriving DecidableEq, Repr

/-- What happens next in the select program. -/
inductive SelectAction where
  /-- Time passes. -/
  | tick (ms : Nat)
  /-- The next statement of `main` other than the `select`. -/
  | main
  /-- The sleep of the first goroutine ends; it reaches `ch1 <- "from ch1"`. -/
  | wake1
  /-- The sleep of the second goroutine ends; it reaches `ch2 <- "from ch2"`. -/
  | wake2
  /-- The `select` takes `case msg1 := <-ch1`. -/
  | recv1
  /-- The `select` takes `case msg2 := <-ch2`. -/
  | recv2
  deriving DecidableEq, Repr

/-- State at entry of `main`, after the two `make(chan string)`. -/
def selectInit : SelectState :=
  { clock := 0, main := .spawn1, g1 := .notStarted, g2 := .notStarted,
    sent1 := [], sent2 := [], out := [] }

/-- One step of the select program; `none` when the action is not enabled.
The `select` has the two receive cases of the source and nothing else, so
`main` leaves it only through `recv1` or `recv2`. -/
def selectStep (a : SelectAction) (s : SelectState) : Option SelectState :=
  if s.main = .exited then none
  else
    match a with
    | .tick ms => some { s with clock := s.clock + ms }
    | .main =>
      match s.main with
      | .spawn1 => some { s with main := .spawn2, g1 := .sleeping (s.clock + 300) }
      | .spawn2 => some { s with main := .atSelect, g2 := .sleeping (s.clock + 600) }
      | .atSelect => none
      | .println msg => some { s with main := .exited, out := s.out ++ [msg] }
      | .exited => none
    | .wake1 =>
      match s.g1 with
      | .sleeping wakeAt => if wakeAt ≤ s.clock then some { s with g1 := .sending } else none
      | _ => none
    | .wake2 =>
      match s.g2 with
      | .sleeping wakeAt => if wakeAt ≤ s.clock then some { s with g2 := .sending } else none
      | _ => none
    | .recv1 =>
      if s.main = .atSelect ∧ s.g1 = .sending then
        some { s with main := .println "from ch1", g1 := .done,
                      sent1 := s.sent1 ++ ["from ch1"] }
      else none
    | .recv2 =>
      if s.main = .atSelect ∧ s.g2 = .sending then
        some { s with main := .println "from ch2", g2 := .done,
                      sent2 := s.sent2 ++ ["from ch2"] }
      else none

/-- Run a sequence of actions from a state. -/
def selectRun : List SelectAction → SelectState → Option SelectState
  | [], s => some s
  | a :: rest, s =>
    match selectStep a s with
    | none => none
    | some s1 => selectRun rest s1

/-! ### Invariants of the two programs -/

/-- Where `main` of the goroutines program stands after `n` of its steps. -/
def mainAt : Nat → PoolMainPC
  | 0 => .loop 1
  | 1 => .loop 2
  | 2 => .loop 3
  | 3 => .loop 4
  | 4 => .sleeping
  | _ => .exited

/-- What holds of the goroutines program once `main` has taken `n` steps,
whatever the workers did in between. -/
def PoolInv (n : Nat) (s : PoolState) : Prop :=
  n ≤ 5 ∧ s.main = mainAt n ∧ spawnedIds s = [1, 2, 3].take n ∧ s.iterations = min n 3

/-- Progress of one producer: its completed sends are its own single message
once it is done and nothing before, and it is not past its sleep before the
delay has gone by. -/
def ProducerInv (delay : Nat) (msg : String) (clock : Nat) (g : ProducerPC)
    (sent : List String) : Prop :=
  match g with
  | .notStarted => sent = []
  | .sleeping wakeAt => sent = [] ∧ delay ≤ wakeAt
  | .sending => sent = [] ∧ delay ≤ clock
  | .done => sent = [msg] ∧ delay ≤ clock

/-- What holds in every reachable state of the select program. -/
def SelectInv (s : SelectState) : Prop :=
  ProducerInv 300 "from ch1" s.clock s.g1 s.sent1 ∧
  ProducerInv 600 "from ch2" s.clock s.g2 s.sent2 ∧
  (match s.main with
   | .spawn1 => s.g1 = .notStarted ∧ s.g2 = .notStarted ∧ s.out = []
   | .spawn2 => s.g1 ≠ .done ∧ s.g2 = .notStarted ∧ s.out = []
   | .atSelect => s.g1 ≠ .done ∧ s.g2 ≠ .done ∧ s.out = []
   | .println msg =>
     s.out = [] ∧
     ((msg = "from ch1" ∧ s.g1 = .done ∧ s.g2 ≠ .done) ∨
      (msg = "from ch2" ∧ s.g2 = .done ∧ s.g1 ≠ .done))
   | .exited =>
     (s.out = ["from ch1"] ∧ s.g1 = .done ∧ s.g2 ≠ .done) ∨
     (s.out = ["from ch2"] ∧ s.g2 = .done ∧ s.g1 ≠ .done))

/-! ## Arithmetic facts about `goDiv` -/

theorem wrapInt_of_inRange (x : Int) (h : InRange x) : wrapInt x = x := by
  unfold InRange minInt maxInt at h
  unfold wrapInt
  omega

/-- The quotient computed by `Int.tdiv` is the one truncated toward zero: its
product with the divisor lies between zero and the dividend, less than one
divisor away from the dividend. -/
theorem tdiv_truncates (a b : Int) (hb : b ≠ 0) :
    (a.tdiv b * b).natAbs ≤ a.natAbs ∧ (a - a.tdiv b * b).natAbs < b.natAbs := by
  obtain ⟨n, rfl | rfl⟩ := Int.eq_nat_or_neg a <;>
  obtain ⟨m, rfl | rfl⟩ := Int.eq_nat_or_neg b <;>
  · have hm : 0 < m := by
      rcases Nat.eq_zero_or_pos m with h | h
      · subst h; simp at hb
      · exact h
    have h1 : n / m * m ≤ n := Nat.div_mul_le_self n m
    have h2 : n < n / m * m + m := by
      have e := Nat.div_add_mod n m
      have l := Nat.mod_lt n hm
      rw [Nat.mul_comm] at e
      omega
    simp only [Int.neg_tdiv, Int.tdiv_neg, ← Int.ofNat_tdiv, neg_neg, neg_mul, mul_neg]
    have h3 : ((n / m : Nat) : Int) * (m : Int) = ((n / m * m : Nat) : Int) := by
      push_cast; rfl
    rw [h3]
    generalize n / m * m = k at *
    omega

theorem natAbs_tdiv_eq (a b : Int) : (a.tdiv b).natAbs = a.natAbs / b.natAbs :=
  Int.natAbs_tdiv a b

/-- Apart from `minInt / -1` the truncated quotient of an `int` is an `int`. -/
theorem tdiv_inRange (a b : Int) (ha : InRange a) (hb : b ≠ 0)
    (hov : ¬ (a = minInt ∧ b = -1)) : InRange (a.tdiv b) := by
  have hq := natAbs_tdiv_eq a b
  unfold InRange minInt maxInt at *
  by_cases h1 : b = 1
  · subst h1; simpa using ha
  by_cases h2 : b = -1
  · subst h2
    have e : a.tdiv (-1) = -a := by simp [Int.tdiv_neg]
    rw [e]
    have : a ≠ -(2 ^ 63) := fun h => hov ⟨h, rfl⟩
    omega
  · have hb2 : 2 ≤ b.natAbs := by omega
    have hle : a.natAbs / b.natAbs ≤ a.natAbs / 2 := Nat.div_le_div_left hb2 (by decide)
    omega

theorem goDiv_eq_tdiv (a b : Int) (ha : InRange a) (hb : b ≠ 0)
    (hov : ¬ (a = minInt ∧ b = -1)) : goDiv a b = a.tdiv b :=
  wrapInt_of_inRange _ (tdiv_inRange a b ha hb hov)

theorem goDiv_minInt_neg_one : goDiv minInt (-1) = minInt := by decide

/-- For an `int` dividend the wrapped quotient is zero exactly when the
dividend is smaller in magnitude than the divisor. -/
theorem goDiv_eq_zero_iff (a b : Int) (ha : InRange a) (hb : b ≠ 0) :
    goDiv a b = 0 ↔ a.natAbs < b.natAbs := by
  have hq := natAbs_tdiv_eq a b
  have hle : a.natAbs / b.natAbs ≤ a.natAbs := Nat.div_le_self _ _
  have hbpos : 0 < b.natAbs := Int.natAbs_pos.mpr hb
  have hz : a.natAbs / b.natAbs = 0 ↔ a.natAbs < b.natAbs := by
    constructor
    · intro h
      have := Nat.lt_of_div_lt_div (show a.natAbs / b.natAbs < b.natAbs / b.natAbs by
        rw [h, Nat.div_self hbpos]; decide)
      exact this
    · exact Nat.div_eq_of_lt
  unfold InRange minInt maxInt at ha
  unfold goDiv wrapInt
  rw [← hz]
  omega

theorem safeDivide_eq (a b : Int) (out : Stdout) :
    safeDivide a b out =
      if b = 0 then (out ++ ["Recovered from panic: division by zero"], .ret 0)
      else (out, .ret (goDiv a b)) := by
  unfold safeDivide safeDivideBody
  split <;> rfl

/-! ## Day10 / Day11: the sequential claims -/

/-- C3: `divide(a, b)` returns a non-nil error exactly when `b = 0`; for
`b = 0` the result is `(0, error "division by zero")`; for `b != 0` it is
`(a / b, nil)` with Go's quotient `a / b`, which for `int` operands (the
wrapping `minInt / -1`, equal to `minInt`, apart) is truncated toward zero:
`q * b` is no larger in magnitude than `a` and less than `|b|` away from it.
`divide(10, 2)` is `(5, nil)`. -/
theorem divide_spec (a b : Int) :
    ((divide a b).2 ≠ none ↔ b = 0) ∧
    (b = 0 → divide a b = (0, some "division by zero")) ∧
    (b ≠ 0 → divide a b = (goDiv a b, none)) ∧
    (b ≠ 0 → InRange a → ¬ (a = minInt ∧ b = -1) →
      ((divide a b).1 * b).natAbs ≤ a.natAbs ∧
      (a - (divide a b).1 * b).natAbs < b.natAbs) ∧
    divide minInt (-1) = (minInt, none) ∧
    divide 10 2 = (5, none) := by
  refine ⟨?_, ?_, ?_, ?_, by decide, by decide⟩
  · unfold divide
    split <;> simp_all
  · intro h
    simp [divide, h]
  · intro h
    simp [divide, h]
  · intro hb ha hov
    have e : (divide a b).1 = a.tdiv b := by
      simp [divide, hb, goDiv_eq_tdiv a b ha hb hov]
    rw [e]
    exact tdiv_truncates a b hb

/-- Witness for `divide_spec` at `divide(-7, 2)`: no error, quotient `-3`. -/
theorem divide_spec_witness :
    divide (-7) 2 = (-3, none) ∧
    ((divide (-7) 2).1 * 2).natAbs ≤ (-7 : Int).natAbs ∧
    ((-7 : Int) - (divide (-7) 2).1 * 2).natAbs < (2 : Int).natAbs :=
  ⟨by decide,
   (divide_spec (-7) 2).2.2.2.1 (by decide) (by decide) (by decide)⟩

/-- C1: every call `safeDivide(a, b)` returns normally: no panic reaches the
caller; for `b = 0` the deferred `recover` intercepts the panic, prints it and
the call returns `0`; `main` then prints `Result: 0` and ends normally. -/
theorem safeDivide_returns_normally (a b : Int) (out : Stdout) :
    (∃ v, (safeDivide a b out).2 = .ret v) ∧
    (∀ msg, (safeDivide a b out).2 ≠ .panic msg) ∧
    safeDivide a 0 out = (out ++ ["Recovered from panic: division by zero"], .ret 0) ∧
    safeDivide 10 0 out = (out ++ ["Recovered from panic: division by zero"], .ret 0) ∧
    safeDivideMain out =
      (out ++ ["Recovered from panic: division by zero"] ++ ["Result: 0"], .ret ()) := by
  have h0 : ∀ x : Int, safeDivide x 0 out =
      (out ++ ["Recovered from panic: division by zero"], .ret 0) := by
    intro x
    simp [safeDivide_eq]
  refine ⟨?_, ?_, h0 a, h0 10, ?_⟩
  · rw [safeDivide_eq]
    split
    · exact ⟨0, rfl⟩
    · exact ⟨goDiv a b, rfl⟩
  · intro msg
    rw [safeDivide_eq]
    split <;> simp
  · unfold safeDivideMain
    rw [h0 10]
    rfl

/-- C2 fails as stated: the value `safeDivide(10, 0)` hands back after
recovering is the same as the normal result of `safeDivide(0, 1)`. -/
theorem safeDivide_failure_value_not_distinct :
    (1 : Int) ≠ 0 ∧ (safeDivide 10 0 []).2 = (safeDivide 0 1 []).2 := by
  decide

/-- C2 as amended: after recovering, `safeDivide(a, 0)` hands back the plain
`int` zero value; it coincides with the normal result of `safeDivide(a', b')`,
`b' != 0`, exactly when that quotient is `0`, that is when `|a'| < |b'|`; the
recovery shows only in the line printed by the deferred function. -/
theorem safeDivide_failure_value_untagged (a a' b' : Int) (out : Stdout)
    (ha' : InRange a') (hb' : b' ≠ 0) :
    (safeDivide a 0 out).2 = .ret 0 ∧
    ((safeDivide a 0 out).2 = (safeDivide a' b' out).2 ↔ a'.natAbs < b'.natAbs) ∧
    (safeDivide a 0 out).1 = out ++ ["Recovered from panic: division by zero"] ∧
    (safeDivide a' b' out).1 = out := by
  have hz := goDiv_eq_zero_iff a' b' ha' hb'
  simp only [safeDivide_eq, if_true, if_neg hb', Flow.ret.injEq, true_and, and_true]
  rw [← hz]
  exact eq_comm

/-- Witness for `safeDivide_failure_value_untagged`: `safeDivide(10, 0)` and
`safeDivide(3, 5)` both hand back `0`. -/
theorem safeDivide_failure_value_untagged_witness :
    InRange 3 ∧ (5 : Int) ≠ 0 ∧ (safeDivide 10 0 []).2 = .ret 0 ∧
    ((safeDivide 10 0 []).2 = (safeDivide 3 5 []).2 ↔ (3 : Int).natAbs < (5 : Int).natAbs) ∧
    (safeDivide 10 0 []).1 = [] ++ ["Recovered from panic: division by zero"] ∧
    (safeDivide 3 5 []).1 = [] :=
  ⟨by decide, by decide,
   safeDivide_failure_value_untagged 10 3 5 [] (by decide) (by decide)⟩

/-- C8: for all `a` and `b` the value returned by `safeDivide(a, b)` is the
first component of `divide(a, b)`; in particular both give `0` for `b = 0`
and both give `minInt` for `minInt / -1`. -/
theorem safeDivide_agrees_with_divide (a b : Int) (out : Stdout) :
    (safeDivide a b out).2 = .ret (divide a b).1 ∧
    ((safeDivide a 0 out).2 = .ret 0 ∧ (divide a 0).1 = 0) ∧
    ((safeDivide minInt (-1) out).2 = .ret minInt ∧ (divide minInt (-1)).1 = minInt) := by
  refine ⟨?_, ⟨?_, ?_⟩, ⟨?_, ?_⟩⟩
  · rw [safeDivide_eq]
    unfold divide
    split <;> rfl
  · simp [safeDivide_eq]
  · simp [divide]
  · rw [safeDivide_eq, if_neg (by decide), goDiv_minInt_neg_one]
  · decide

/-- C9: `readConfig(path)` returns a non-nil error exactly when `path` is
empty; `readConfig("")` is `("", error "path cannot be empty")` and every
non-empty path gives `("config-data", nil)`. -/
theorem readConfig_spec (path : String) :
    ((readConfig path).2 ≠ none ↔ path = "") ∧
    readConfig "" = ("", some "path cannot be empty") ∧
    (path ≠ "" → readConfig path = ("config-data", none)) ∧
    readConfigMain [] = ["Error: path cannot be empty"] := by
  refine ⟨?_, by decide, ?_, by decide⟩
  · unfold readConfig
    split <;> simp_all
  · intro h
    simp [readConfig, h]

/-- Witness for `readConfig_spec` at a non-empty path. -/
theorem readConfig_spec_witness :
    readConfig "app.yaml" = ("config-data", none) :=
  (readConfig_spec "app.yaml").2.2.1 (by decide)

/-! ## Day12: the goroutines program -/

theorem set_same {α : Type} (l : List α) (k : Nat) (a : α) (h : l.get? k = some a) :
    l.set k a = l := by
  induction l generalizing k with
  | nil => rfl
  | cons x xs ih =>
    cases k with
    | zero =>
      simp only [List.get?_cons_zero, Option.some.injEq] at h
      simp [h]
    | succ k =>
      simp only [List.get?_cons_succ] at h
      simp [ih k h]

theorem workerStep_id (w w1 : Worker) (out out1 : Stdout)
    (h : workerStep w out = some (w1, out1)) : w1.id = w.id := by
  unfold workerStep at h
  split at h <;> simp at h <;> (rw [← h.1])

theorem poolStep_worker (k : Nat) (s s1 : PoolState)
    (h : poolStep (.worker k) s = some s1) :
    s1.main = s.main ∧ spawnedIds s1 = spawnedIds s ∧ s1.iterations = s.iterations := by
  simp only [poolStep] at h
  split at h
  · simp at h
  · split at h
    · simp at h
    · rename_i w hw
      split at h
      · simp at h
      · rename_i w1 out1 hstep
        have hid := workerStep_id w w1 s.out out1 hstep
        simp only [Option.some.injEq] at h
        subst h
        refine ⟨rfl, ?_, rfl⟩
        simp only [spawnedIds, List.map_set, hid]
        apply set_same
        rw [List.get?_eq_getElem?] at hw
        simp only [List.get?_eq_getElem?, List.getElem?_map, hw]
        rfl

theorem poolInv_main (n : Nat) (s s1 : PoolState) (hinv : PoolInv n s)
    (h : poolStep .main s = some s1) : PoolInv (n + 1) s1 := by
  obtain ⟨hn, hm, hids, hit⟩ := hinv
  simp only [poolStep, poolMainStep] at h
  unfold PoolInv spawnedIds at *
  interval_cases n <;> simp only [mainAt] at hm <;> rw [hm] at h <;>
    simp at h <;> subst h <;> simp_all [mainAt] <;> decide

theorem poolInv_worker (n k : Nat) (s s1 : PoolState) (hinv : PoolInv n s)
    (h : poolStep (.worker k) s = some s1) : PoolInv n s1 := by
  obtain ⟨hn, hm, hids, hit⟩ := hinv
  obtain ⟨e1, e2, e3⟩ := poolStep_worker k s s1 h
  exact ⟨hn, e1 ▸ hm, e2 ▸ hids, e3 ▸ hit⟩

theorem poolInv_run (acts : List PoolAction) (n : Nat) (s s1 : PoolState)
    (hinv : PoolInv n s) (h : poolRun acts s = some s1) :
    PoolInv (n + mainSteps acts) s1 := by
  induction acts generalizing n s with
  | nil =>
    simp only [poolRun, Option.some.injEq] at h
    subst h
    simpa [mainSteps] using hinv
  | cons a rest ih =>
    simp only [poolRun] at h
    split at h
    · simp at h
    · rename_i s2 hstep
      cases a with
      | main =>
        have := ih (n + 1) s2 (poolInv_main n s s2 hinv hstep) h
        simpa [mainSteps, Nat.add_assoc, Nat.add_comm 1] using this
      | worker k =>
        have := ih n s2 (poolInv_worker n k s s2 hinv hstep) h
        simpa [mainSteps] using this

theorem poolInv_init : PoolInv 0 poolInit := by
  unfold PoolInv poolInit spawnedIds mainAt
  simp

/-- C7: in every execution of the goroutines program the `go worker(i)`
statements executed are exactly the first rounds of the loop, with ids
`1, 2, 3` in this order and each once: after `n` steps of `main` the spawned
ids are the first `n` of `[1, 2, 3]`, whatever steps the workers took in
between; from the third step on all three are spawned and nothing more; the
fourth step leaves the loop after 3 iterations and `main` takes at most 5
steps in all; and while `main` is in the loop its next step is enabled in
every state of the workers. -/
theorem dispatch_loop_spawns_exactly_three (acts : List PoolAction) (s : PoolState)
    (h : poolRun acts poolInit = some s) :
    mainSteps acts ≤ 5 ∧
    spawnedIds s = [1, 2, 3].take (mainSteps acts) ∧
    s.workers.length = min (mainSteps acts) 3 ∧
    s.iterations = min (mainSteps acts) 3 ∧
    (3 ≤ mainSteps acts → spawnedIds s = [1, 2, 3]) ∧
    (4 ≤ mainSteps acts → s.iterations = 3 ∧ (s.main = .sleeping ∨ s.main = .exited)) ∧
    (∀ i, s.main = .loop i → ∃ s1, poolStep .main s = some s1) := by
  have hinv := poolInv_run acts 0 poolInit s poolInv_init h
  rw [Nat.zero_add] at hinv
  obtain ⟨hn, hm, hids, hit⟩ := hinv
  have hlen : s.workers.length = min (mainSteps acts) 3 := by
    have := congrArg List.length hids
    simpa [spawnedIds] using this
  refine ⟨hn, hids, hlen, hit, ?_, ?_, ?_⟩
  · intro h3
    rw [hids]
    exact List.take_of_length_le (by simpa using h3)
  · intro h4
    generalize mainSteps acts = n at *
    have hn' : n = 4 ∨ n = 5 := by omega
    rcases hn' with rfl | rfl
    · exact ⟨by simpa using hit, Or.inl hm⟩
    · exact ⟨by simpa using hit, Or.inr hm⟩
  · intro i hi
    simp only [poolStep, poolMainStep, hi]
    split
    · exact ⟨_, rfl⟩
    · exact ⟨_, rfl⟩

/-- Witness for `dispatch_loop_spawns_exactly_three`: a schedule where the
first and third worker start between the steps of `main`. -/
theorem dispatch_loop_spawns_exactly_three_witness :
    poolRun [.main, .worker 0, .main, .main, .worker 2, .main, .main] poolInit =
      some { main := .exited,
             workers := [⟨1, .sleeping⟩, ⟨2, .start⟩, ⟨3, .sleeping⟩],
             iterations := 3,
             out := ["Worker 1 started", "Worker 3 started"] } ∧
    spawnedIds { main := .exited,
                 workers := [⟨1, .sleeping⟩, ⟨2, .start⟩, ⟨3, .sleeping⟩],
                 iterations := 3,
                 out := ["Worker 1 started", "Worker 3 started"] } = [1, 2, 3] :=
  ⟨by decide,
   (dispatch_loop_spawns_exactly_three
      [.main, .worker 0, .main, .main, .worker 2, .main, .main] _ (by decide)).2.2.2.2.1
      (by decide)⟩

/-! ## Day12: the select program -/

theorem selectInv_init : SelectInv selectInit := by
  simp [SelectInv, ProducerInv, selectInit]

theorem selectInv_step (a : SelectAction) (s s1 : SelectState) (hinv : SelectInv s)
    (h : selectStep a s = some s1) : SelectInv s1 := by
  obtain ⟨clock, main, g1, g2, sent1, sent2, out⟩ := s
  unfold selectStep at h
  unfold SelectInv at *
  cases a <;> cases main <;> cases g1 <;> cases g2 <;>
    simp at h <;>
    (try (obtain ⟨_, rfl⟩ := h)) <;>
    simp_all [ProducerInv] <;> omega

theorem selectInv_run (acts : List SelectAction) (s s1 : SelectState) (hinv : SelectInv s)
    (h : selectRun acts s = some s1) : SelectInv s1 := by
  induction acts generalizing s with
  | nil =>
    simp only [selectRun, Option.some.injEq] at h
    exact h ▸ hinv
  | cons a rest ih =>
    simp only [selectRun] at h
    split at h
    · simp at h
    · rename_i s2 hstep
      exact ih s2 (selectInv_step a s s2 hinv hstep) h

/-- C4 fails as stated: `time.Sleep` only keeps a goroutine asleep for at
least its delay, so in the execution where the first producer is still not
woken when 600ms have passed and the second one is, the `select` takes the
`ch2` case and `from ch2` is printed; hence not every finished execution
prints `from ch1`. -/
theorem select_may_take_ch2 :
    selectRun [.main, .main, .tick 600, .wake2, .recv2, .main] selectInit =
      some { clock := 600, main := .exited, g1 := .sleeping 300, g2 := .done,
             sent1 := [], sent2 := ["from ch2"], out := ["from ch2"] } ∧
    ¬ (∀ (acts : List SelectAction) (s : SelectState),
        selectRun acts selectInit = some s → s.main = .exited → s.out = ["from ch1"]) := by
  refine ⟨by decide, ?_⟩
  intro hall
  have hrun : selectRun [.main, .main, .tick 600, .wake2, .recv2, .main] selectInit =
      some { clock := 600, main := .exited, g1 := .sleeping 300, g2 := .done,
             sent1 := [], sent2 := ["from ch2"], out := ["from ch2"] } := by decide
  have hout := hall _ _ hrun rfl
  exact absurd hout (by decide)

/-- C4 as amended: the `select` resolves with the value of a source that is
ready. In every execution a receive case is taken only when the goroutine of
its channel stands at its send, which is not before its delay (300ms for
`ch1`, 600ms for `ch2`) has gone by, and the case then holds that channel's
message; when only `ch1` is ready the `ch1` case can be taken and the `ch2`
case cannot; a finished execution printed exactly one of the two messages;
and whenever the `select` resolves before 600ms have passed it took the `ch1`
case, so `from ch1` is printed and `from ch2` is not. -/
theorem select_resolves_with_ready_source (acts : List SelectAction) (s : SelectState)
    (h : selectRun acts selectInit = some s) :
    (∀ s1, selectStep .recv1 s = some s1 →
      s.g1 = .sending ∧ 300 ≤ s.clock ∧ s1.main = .println "from ch1") ∧
    (∀ s1, selectStep .recv2 s = some s1 →
      s.g2 = .sending ∧ 600 ≤ s.clock ∧ s1.main = .println "from ch2") ∧
    (s.main = .atSelect → s.g1 = .sending → s.g2 ≠ .sending →
      (∃ s1, selectStep .recv1 s = some s1) ∧ selectStep .recv2 s = none) ∧
    (s.main = .exited →
      (s.out = ["from ch1"] ∧ 300 ≤ s.clock) ∨ (s.out = ["from ch2"] ∧ 600 ≤ s.clock)) ∧
    (s.clock < 600 → ∀ msg, s.main = .println msg → msg = "from ch1") ∧
    (s.main = .exited → s.clock < 600 → s.out = ["from ch1"]) := by
  have hinv := selectInv_run acts selectInit s selectInv_init h
  obtain ⟨clock, main, g1, g2, sent1, sent2, out⟩ := s
  unfold SelectInv at hinv
  obtain ⟨hp1, hp2, hmain⟩ := hinv
  simp only at hp1 hp2 hmain
  have hd1 : g1 = .sending ∨ g1 = .done → 300 ≤ clock := by
    intro hg
    rcases hg with rfl | rfl
    · exact hp1.2
    · exact hp1.2
  have hd2 : g2 = .sending ∨ g2 = .done → 600 ≤ clock := by
    intro hg
    rcases hg with rfl | rfl
    · exact hp2.2
    · exact hp2.2
  refine ⟨?_, ?_, ?_, ?_, ?_, ?_⟩
  · intro s1 hstep
    simp only [selectStep] at hstep
    split at hstep
    · simp at hstep
    · split at hstep
      · rename_i hc
        simp only [Option.some.injEq] at hstep
        subst hstep
        exact ⟨hc.2, hd1 (Or.inl hc.2), rfl⟩
      · simp at hstep
  · intro s1 hstep
    simp only [selectStep] at hstep
    split at hstep
    · simp at hstep
    · split at hstep
      · rename_i hc
        simp only [Option.some.injEq] at hstep
        subst hstep
        exact ⟨hc.2, hd2 (Or.inl hc.2), rfl⟩
      · simp at hstep
  · intro hm hg1 hg2
    simp only at hm hg1 hg2
    subst hm
    subst hg1
    refine ⟨?_, ?_⟩
    · simp [selectStep]
    · simp [selectStep, hg2]
  · intro hm
    simp only at hm
    subst hm
    rcases hmain with h1 | h1
    · exact Or.inl ⟨h1.1, hd1 (Or.inr h1.2.1)⟩
    · exact Or.inr ⟨h1.1, hd2 (Or.inr h1.2.1)⟩
  · intro hc msg hm
    simp only at hc hm
    subst hm
    rcases hmain.2 with h1 | h1
    · exact h1.1
    · have := hd2 (Or.inr h1.2.1)
      omega
  · intro hm hc
    simp only at hm hc
    subst hm
    rcases hmain with h1 | h1
    · exact h1.1
    · have := hd2 (Or.inr h1.2.1)
      omega

/-- Witness for `select_resolves_with_ready_source`: the execution in which
the first producer is woken after 350ms and the `select` takes its case. -/
theorem select_resolves_with_ready_source_witness :
    selectRun [.main, .main, .tick 350, .wake1, .recv1, .main] selectInit =
      some { clock := 350, main := .exited, g1 := .done, g2 := .sleeping 600,
             sent1 := ["from ch1"], sent2 := [], out := ["from ch1"] } ∧
    (["from ch1"] : Stdout) = ["from ch1"] ∧
    (∃ s1, selectStep .recv1 { clock := 350, main := .atSelect, g1 := .sending,
                               g2 := .sleeping 600, sent1 := [], sent2 := [],
                               out := [] } = some s1) ∧
    selectStep .recv2 { clock := 350, main := .atSelect, g1 := .sending,
                        g2 := .sleeping 600, sent1 := [], sent2 := [], out := [] } = none :=
  ⟨by decide,
   (select_resolves_with_ready_source [.main, .main, .tick 350, .wake1, .recv1, .main]
      { clock := 350, main := .exited, g1 := .done, g2 := .sleeping 600,
        sent1 := ["from ch1"], sent2 := [], out := ["from ch1"] }
      (by decide)).2.2.2.2.2 rfl (by decide),
   (select_resolves_with_ready_source [.main, .main, .tick 350, .wake1]
      { clock := 350, main := .atSelect, g1 := .sending, g2 := .sleeping 600,
        sent1 := [], sent2 := [], out := [] }
      (by decide)).2.2.1 rfl rfl (by decide)⟩

/-- C5 fails as stated: 100ms after the start both producers are still
asleep and `main` stands at the `select` with no step of its own enabled, so
no timeout alternative fires; the wait goes on past the deadline and ends,
once the first producer is ready at 300ms, in the data outcome `from ch1`. -/
theorem select_blocks_past_deadline :
    selectRun [.main, .main, .tick 100] selectInit =
      some { clock := 100, main := .atSelect, g1 := .sleeping 300, g2 := .sleeping 600,
             sent1 := [], sent2 := [], out := [] } ∧
    selectStep .main { clock := 100, main := .atSelect, g1 := .sleeping 300,
                       g2 := .sleeping 600, sent1 := [], sent2 := [], out := [] } = none ∧
    selectStep .recv1 { clock := 100, main := .atSelect, g1 := .sleeping 300,
                        g2 := .sleeping 600, sent1 := [], sent2 := [], out := [] } = none ∧
    selectStep .recv2 { clock := 100, main := .atSelect, g1 := .sleeping 300,
                        g2 := .sleeping 600, sent1 := [], sent2 := [], out := [] } = none ∧
    selectRun [.main, .main, .tick 100, .tick 200, .wake1, .recv1, .main] selectInit =
      some { clock := 300, main := .exited, g1 := .done, g2 := .sleeping 600,
             sent1 := ["from ch1"], sent2 := [], out := ["from ch1"] } := by
  decide

/-- C5 as amended: the `select` over `ch1` and `ch2` has no timeout
alternative. In every execution, before 300ms have passed (so at a 100ms
deadline) neither channel is ready and neither receive case can be taken;
at the `select`, `main` has no step of its own and leaves it only by
receiving from `ch1` or from `ch2`; the output is never anything but empty,
`from ch1` or `from ch2`, and a finished execution printed one of the two. -/
theorem select_has_no_timeout (acts : List SelectAction) (s : SelectState)
    (h : selectRun acts selectInit = some s) :
    (s.clock < 300 → s.g1 ≠ .sending ∧ s.g2 ≠ .sending ∧
      selectStep .recv1 s = none ∧ selectStep .recv2 s = none) ∧
    (s.main = .atSelect → selectStep .main s = none ∧
      ∀ a s1, selectStep a s = some s1 → s1.main ≠ .atSelect →
        (a = .recv1 ∧ s.g1 = .sending ∧ s1.main = .println "from ch1") ∨
        (a = .recv2 ∧ s.g2 = .sending ∧ s1.main = .println "from ch2")) ∧
    (s.out = [] ∨ s.out = ["from ch1"] ∨ s.out = ["from ch2"]) ∧
    (s.main = .exited → s.out = ["from ch1"] ∨ s.out = ["from ch2"]) := by
  have hinv := selectInv_run acts selectInit s selectInv_init h
  obtain ⟨clock, main, g1, g2, sent1, sent2, out⟩ := s
  unfold SelectInv at hinv
  refine ⟨?_, ?_, ?_, ?_⟩
  · intro hc
    simp only at hc
    cases g1 <;> cases g2 <;> simp_all [ProducerInv, selectStep] <;> omega
  · intro hm
    simp only at hm
    subst hm
    refine ⟨by simp [selectStep], ?_⟩
    intro a s1 hstep hne
    cases a <;> simp [selectStep] at hstep
    · subst hstep; simp at hne
    · split at hstep
      · split at hstep <;> simp at hstep
        subst hstep; simp at hne
      · simp at hstep
    · split at hstep
      · split at hstep <;> simp at hstep
        subst hstep; simp at hne
      · simp at hstep
    · obtain ⟨hg, rfl⟩ := hstep
      exact Or.inl ⟨rfl, hg, rfl⟩
    · obtain ⟨hg, rfl⟩ := hstep
      exact Or.inr ⟨rfl, hg, rfl⟩
  · cases main <;> simp_all
    · rcases hinv.2.2 with h1 | h1
      · simp [h1.1]
      · simp [h1.1]
  · intro hm
    simp only at hm
    subst hm
    rcases hinv.2.2 with h1 | h1
    · exact Or.inl h1.1
    · exact Or.inr h1.1

/-- Witness for `select_has_no_timeout`: the state 100ms after both
producers were spawned. -/
theorem select_has_no_timeout_witness :
    selectRun [.main, .main, .tick 100] selectInit =
      some { clock := 100, main := .atSelect, g1 := .sleeping 300, g2 := .sleeping 600,
             sent1 := [], sent2 := [], out := [] } ∧
    selectStep .recv1 { clock := 100, main := .atSelect, g1 := .sleeping 300,
                        g2 := .sleeping 600, sent1 := [], sent2 := [], out := [] } = none ∧
    selectStep .recv2 { clock := 100, main := .atSelect, g1 := .sleeping 300,
                        g2 := .sleeping 600, sent1 := [], sent2 := [], out := [] } = none ∧
    selectStep .main { clock := 100, main := .atSelect, g1 := .sleeping 300,
                       g2 := .sleeping 600, sent1 := [], sent2 := [], out := [] } = none :=
  have key := select_has_no_timeout [.main, .main, .tick 100]
    { clock := 100, main := .atSelect, g1 := .sleeping 300, g2 := .sleeping 600,
      sent1 := [], sent2 := [], out := [] } (by decide)
  ⟨by decide, (key.1 (by decide)).2.2.1, (key.1 (by decide)).2.2.2,
   (key.2.1 rfl).1⟩

/-- C6 fails as stated: in the complete execution where the `select` takes
the `ch1` case, `main` returns while the second goroutine has not sent: one
send completed on `ch1`, none on `ch2`, and nothing can run afterwards. -/
theorem select_second_send_never_completes :
    selectRun [.main, .main, .tick 300, .wake1, .recv1, .main] selectInit =
      some { clock := 300, main := .exited, g1 := .done, g2 := .sleeping 600,
             sent1 := ["from ch1"], sent2 := [], out := ["from ch1"] } ∧
    selectStep .wake2 { clock := 300, main := .exited, g1 := .done, g2 := .sleeping 600,
                        sent1 := ["from ch1"], sent2 := [], out := ["from ch1"] } = none ∧
    selectStep (.tick 300) { clock := 300, main := .exited, g1 := .done,
                             g2 := .sleeping 600, sent1 := ["from ch1"], sent2 := [],
                             out := ["from ch1"] } = none := by
  decide

/-- C6 as amended: in every execution of the select program at most one send
completes on each channel, a completed send on `ch1` (`ch2`) is the single
message of the goroutine owning it and that goroutine is then done, no
channel receives a second value, and over both channels at most one send
completes; in every complete execution exactly one send completed in total
(on the channel whose case the `select` took) and nothing runs after `main`
returned, so the other goroutine's send never completes. -/
theorem select_sends_at_most_once (acts : List SelectAction) (s : SelectState)
    (h : selectRun acts selectInit = some s) :
    s.sent1.length ≤ 1 ∧ s.sent2.length ≤ 1 ∧
    (s.sent1 = ["from ch1"] ↔ s.g1 = .done) ∧ (s.sent1 = [] ↔ s.g1 ≠ .done) ∧
    (s.sent2 = ["from ch2"] ↔ s.g2 = .done) ∧ (s.sent2 = [] ↔ s.g2 ≠ .done) ∧
    s.sent1.length + s.sent2.length ≤ 1 ∧
    (s.main = .exited →
      s.sent1.length + s.sent2.length = 1 ∧ s.out = s.sent1 ++ s.sent2 ∧
      ∀ a, selectStep a s = none) := by
  have hinv := selectInv_run acts selectInit s selectInv_init h
  obtain ⟨clock, main, g1, g2, sent1, sent2, out⟩ := s
  unfold SelectInv at hinv
  have hex : ∀ a, selectStep a ⟨clock, .exited, g1, g2, sent1, sent2, out⟩ = none := by
    intro a
    simp [selectStep]
  cases main <;> cases g1 <;> cases g2 <;> simp_all [ProducerInv]

/-- Witness for `select_sends_at_most_once`: the complete execution in which
the `select` takes the `ch1` case. -/
theorem select_sends_at_most_once_witness :
    selectRun [.main, .main, .tick 300, .wake1, .recv1, .main] selectInit =
      some { clock := 300, main := .exited, g1 := .done, g2 := .sleeping 600,
             sent1 := ["from ch1"], sent2 := [], out := ["from ch1"] } ∧
    (["from ch1"] : List String).length + ([] : List String).length = 1 :=
  ⟨by decide,
   ((select_sends_at_most_once [.main, .main, .tick 300, .wake1, .recv1, .main]
      { clock := 300, main := .exited, g1 := .done, g2 := .sleeping 600,
        sent1 := ["from ch1"], sent2 := [], out := ["from ch1"] }
      (by decide)).2.2.2.2.2.2.2 rfl).1⟩

end GoTraining
